import Mathlib

/-!
Shallow embedding of `src/extension.ts` from the vscode-commitizen repository.

Pure data and control flow are translated directly.  The VS Code prompt API
(`showQuickPick`, `showInputBox`) is modelled by passing the user response in
as an explicit `Option` argument (`none` is cancellation), and each wizard
step returns, next to the updated state, the list of prompt placeholder texts
it displayed, so that "performs no interaction" is expressible.  TypeScript
values of type `string | undefined` become `Option String`; JavaScript
truthiness of strings and template-literal interpolation of `undefined` are
modelled explicitly.  The side effects of `commit` (child processes, host
commands, logging) are modelled as an emitted trace of actions, with the
process port returning an exit code and captured stdout.
-/

namespace Commitizen

/-- A quick-pick entry as consumed by `askOneOf` (vscode.QuickPickItem:
only `label` and `description` are used by the source). -/
structure QuickPickItem where
  label : String
  description : String
deriving DecidableEq

/-- One entry of `CzConfig.types` and of `DEFAULT_TYPES`. -/
structure TypeDesc where
  value : String
  name : String
  emoji : String
  emojiCode : String
deriving DecidableEq

/-- One entry of `CzConfig.scopes`.  The TypeScript interface declares
`{ name?: string }[]`, but `getScopePicks` evaluates `scope.name || scope`,
which also supports configurations whose scopes are plain strings.  A
non-string fallback (entry with a missing or empty `name`) is not a string at
runtime; it is modelled by its JavaScript string coercion. -/
inductive ScopeEntry where
  | named (name : Option String)
  | raw (s : String)
deriving DecidableEq

/-- The label `scope.name || scope` computed by `getScopePicks`.  For a plain
string entry, `scope.name` is `undefined`, so the string itself (possibly
empty) is the label.  For an object entry whose `name` is missing or empty,
the object itself is used; its display and comparison behaviour is modelled
by the coercion `[object Object]`. -/
def scopeLabel : ScopeEntry → String
  | ScopeEntry.raw s => s
  | ScopeEntry.named (some n) => if n = "" then "[object Object]" else n
  | ScopeEntry.named none => "[object Object]"

/-- Keys of the prompt-text table (`DEFAULT_MESSAGES` and `CzConfig.messages`). -/
inductive MsgKey where
  | type
  | customScope
  | customScopeEntry
  | scope
  | subject
  | body
  | breaking
  | footer
deriving DecidableEq

/-- The `messages` record of a `CzConfig`.  Each key may be absent.  The
TypeScript interface omits `customScopeEntry`, but `inputMessage` looks the
key up on the runtime object with `hasOwnProperty`, so it is representable. -/
structure Messages where
  type : Option String
  customScope : Option String
  customScopeEntry : Option String
  scope : Option String
  subject : Option String
  body : Option String
  breaking : Option String
  footer : Option String
deriving DecidableEq

/-- Field access `czConfig.messages[messageType]`. -/
def msgLookup (ms : Messages) : MsgKey → Option String
  | MsgKey.type => ms.type
  | MsgKey.customScope => ms.customScope
  | MsgKey.customScopeEntry => ms.customScopeEntry
  | MsgKey.scope => ms.scope
  | MsgKey.subject => ms.subject
  | MsgKey.body => ms.body
  | MsgKey.breaking => ms.breaking
  | MsgKey.footer => ms.footer

/-- The external configuration object (`interface CzConfig`). -/
structure CzConfig where
  types : List TypeDesc
  scopes : List ScopeEntry
  messages : Messages
  allowCustomScopes : Bool
  allowBreakingChanges : List String
  footerPrefix : String
  skipQuestions : Option (List String)
deriving DecidableEq

/-- The built-in `DEFAULT_TYPES` table (ten entries). -/
def DEFAULT_TYPES : List TypeDesc :=
  [ { value := "feat", name := "       : ✨ A new feature",
      emoji := "✨", emojiCode := ":sparkles:" },
    { value := "fix", name := "        : 🐛 A bug fix",
      emoji := "🐛", emojiCode := ":bug:" },
    { value := "docs", name := "      : 📖 Documentation only changes",
      emoji := "📖", emojiCode := ":pencil:" },
    { value := "style",
      name := "     : 💄 Changes that do not affect the meaning of the code (white-space, formatting, missing semi-colons, etc)",
      emoji := "💄", emojiCode := ":lipstick:" },
    { value := "refactor",
      name := " : 📦 A code change that neither fixes a bug nor adds a feature",
      emoji := "📦", emojiCode := ":package:" },
    { value := "perf", name := "      : 🚀 A code change that improves performance",
      emoji := "🚀", emojiCode := ":rocket:" },
    { value := "test", name := "      : 🚨 Adding missing tests or correcting existing tests",
      emoji := "🚨", emojiCode := ":rotating_light:" },
    { value := "build",
      name := "     : 👷 Changes that affect the build system or external dependencies (example scopes: gulp, broccoli, npm)",
      emoji := "👷", emojiCode := ":construction_worker:" },
    { value := "ci",
      name := "         : 💻 Changes to our CI configuration files and scripts (example scopes: Travis, Circle, BrowserStack, SauceLabs)",
      emoji := "💻", emojiCode := ":computer:" },
    { value := "chore", name := "    : 🎫 Other changes that don\x27t modify src or test files",
      emoji := "🎫", emojiCode := ":ticket:" } ]

/-- The built-in `DEFAULT_MESSAGES` table. -/
def DEFAULT_MESSAGES : MsgKey → String
  | MsgKey.type => "Select the type of change that you\x27re committing"
  | MsgKey.customScope => "Denote the SCOPE of this change"
  | MsgKey.customScopeEntry => "Custom scope..."
  | MsgKey.scope => "Denote the SCOPE of this change (optional)"
  | MsgKey.subject => "Write a SHORT, IMPERATIVE tense description of the change"
  | MsgKey.body => "Provide a LONGER description of the change (optional). Use \"|\" to break new line"
  | MsgKey.breaking => "List any BREAKING CHANGES (optional)"
  | MsgKey.footer => "List any ISSUES CLOSED by this change (optional). E.g.: #31, #34"

/-- `ConventionalCommitMessage.shouldSkip`:
`Boolean(czConfig && czConfig.skipQuestions && czConfig.skipQuestions.includes(messageType))`. -/
def shouldSkip (czConfig : Option CzConfig) (messageType : String) : Bool :=
  match czConfig with
  | some c =>
    match c.skipQuestions with
    | some qs => qs.contains messageType
    | none => false
  | none => false

/-- `ConventionalCommitMessage.inputMessage`: a custom message is used when
`czConfig.messages` has the key (`hasCustomMessage`), else the default. -/
def inputMessage (czConfig : Option CzConfig) (messageType : MsgKey) : String :=
  match czConfig with
  | some c =>
    match msgLookup c.messages messageType with
    | some s => s
    | none => DEFAULT_MESSAGES messageType
  | none => DEFAULT_MESSAGES messageType

/-- `askOneOf`: show a quick pick (the displayed `picks` do not constrain the
model; the host guarantees the returned pick is one of them, which claims add
as a hypothesis where needed).  If the selected pick carries the custom label
and a non-empty custom question exists, re-ask as free text and save the
typed text as a fresh pick; saving is represented by the returned
`Option QuickPickItem` (`none` means cancelled, i.e. the source returns
`false` without saving).  The second component lists the questions shown. -/
def askOneOf (question : String) (picks : List QuickPickItem)
    (customLabel customQuestion : Option String)
    (pickResp : Option QuickPickItem) (textResp : Option String) :
    Option QuickPickItem × List String :=
  match pickResp with
  | some p =>
    match customLabel, customQuestion with
    | some cl, some cq =>
      if p.label = cl ∧ cq ≠ "" then
        match textResp with
        | none => (none, [question, cq])
        | some t => (some { label := t, description := "" }, [question, cq])
      else (some p, [question])
    | _, _ => (some p, [question])
  | none => (none, [question])

/-- `ask`: show an input box; `none` is cancellation.  The optional validator
of the source is enforced by the host input box, not by this function. -/
def ask (question : String) (textResp : Option String) : Option String × List String :=
  (textResp, [question])

/-- The subject validator built inside `getSubject` (surfaced by the host
input box; an empty return string means the input is valid). -/
def subjectValidator (maxLength : Nat) (input : String) : String :=
  if input.length = 0 ∨ maxLength < input.length then
    "Subject is required and must be less than " ++ toString maxLength ++ " characters"
  else ""

/-- The state of a `ConventionalCommitMessage` instance: the six answer
fields (TypeScript `string | undefined`), the `next` flag, and the captured
configuration. -/
structure CCM where
  czConfig : Option CzConfig
  next : Bool
  type : Option String
  scope : Option String
  subject : Option String
  body : Option String
  breaking : Option String
  footer : Option String
deriving DecidableEq

/-- The constructor `new ConventionalCommitMessage(czConfig)`: `next` is
initialised to `true`; the answer fields start out `undefined`. -/
def initialState (czConfig : Option CzConfig) : CCM :=
  { czConfig := czConfig, next := true, type := none, scope := none,
    subject := none, body := none, breaking := none, footer := none }

/-- The type list used by `getType`:
`(this.czConfig && this.czConfig.types) || DEFAULT_TYPES`.  When a
configuration is present its `types` array is used as-is, because a
JavaScript array is truthy even when empty; the `||` fallback only applies
when the configuration itself is absent. -/
def typesOf (czConfig : Option CzConfig) : List TypeDesc :=
  match czConfig with
  | some c => c.types
  | none => DEFAULT_TYPES

/-- The quick-pick list built by `getType` (label = `value`, description = `name`). -/
def typePicks (czConfig : Option CzConfig) : List QuickPickItem :=
  (typesOf czConfig).map fun t => { label := t.value, description := t.name }

/-- `getType`. -/
def getType (m : CCM) (pickResp : Option QuickPickItem) : CCM × List String :=
  if m.next then
    match askOneOf (inputMessage m.czConfig MsgKey.type) (typePicks m.czConfig)
        none none pickResp none with
    | (none, asked) => ({ m with next := false }, asked)
    | (some p, asked) => ({ m with type := some p.label }, asked)
  else (m, [])

/-- `ConventionalCommitMessage.getScopePicks`.  The source passes
`this.inputMessage` as an unbound method reference; the intended binding to
the instance configuration is modelled by the explicit `msgOf` argument. -/
def getScopePicks (czConfig : CzConfig) (msgOf : MsgKey → String) : List QuickPickItem :=
  (czConfig.scopes.map fun scope => { label := scopeLabel scope, description := "" }) ++
    (if czConfig.allowCustomScopes then
      [{ label := msgOf MsgKey.customScopeEntry, description := "" }]
     else [])

/-- The free-text else-branch of `getScope` (no configured scopes, not skipped). -/
def getScopeFree (m : CCM) (textResp : Option String) : CCM × List String :=
  match ask (inputMessage m.czConfig MsgKey.scope) textResp with
  | (none, asked) => ({ m with next := false }, asked)
  | (some input, asked) => ({ m with scope := some input }, asked)

/-- `getScope`.  `hasScopes` requires a present configuration with a
non-empty `scopes` array; the additional source check
`this.czConfig.scopes[0] !== undefined` always holds here because modelled
lists contain no `undefined` elements.  In the quick-pick branch the saved
scope is `pick.label || undefined`. -/
def getScope (m : CCM) (pickResp : Option QuickPickItem) (textResp : Option String) :
    CCM × List String :=
  if m.next then
    match m.czConfig with
    | some c =>
      if c.scopes ≠ [] then
        match askOneOf (inputMessage m.czConfig MsgKey.customScope)
            (getScopePicks c (inputMessage m.czConfig))
            (some (inputMessage m.czConfig MsgKey.customScopeEntry))
            (some (inputMessage m.czConfig MsgKey.customScope)) pickResp textResp with
        | (none, asked) => ({ m with next := false }, asked)
        | (some p, asked) =>
          ({ m with scope := if p.label = "" then none else some p.label }, asked)
      else if shouldSkip m.czConfig "scope" then (m, [])
      else getScopeFree m textResp
    | none =>
      if shouldSkip m.czConfig "scope" then (m, [])
      else getScopeFree m textResp
  else (m, [])

/-- `getSubject` (the length validator is surfaced by the host input box). -/
def getSubject (m : CCM) (textResp : Option String) : CCM × List String :=
  if m.next then
    match ask (inputMessage m.czConfig MsgKey.subject) textResp with
    | (none, asked) => ({ m with next := false }, asked)
    | (some input, asked) => ({ m with subject := some input }, asked)
  else (m, [])

/-- `input.split('|').join('\n')`: every `|` becomes a newline. -/
def pipesToNl (s : String) : String :=
  String.mk (s.data.map fun c => if c = '|' then '\n' else c)

/-- Split a character list at every newline, like JavaScript `split('\n')`
(a trailing newline yields a trailing empty line). -/
def splitNl : List Char → List (List Char)
  | [] => [[]]
  | c :: rest =>
    match splitNl rest with
    | [] => [[]]
    | l :: ls => if c = '\n' then [] :: l :: ls else (c :: l) :: ls

/-- Rejoin lines with newlines; inverse of `splitNl`. -/
def joinNl : List (List Char) → List Char
  | [] => []
  | [l] => l
  | l :: l2 :: ls => l ++ '\n' :: joinNl (l2 :: ls)

/-- The position of the last space among the first 73 characters of a line. -/
def lastSpace (l : List Char) : Option Nat :=
  (((List.range 73).filter fun i => l.get? i == some ' ').getLast?)

/-- Modelled from the spec: the hard-wrap performed by the external
`wrap-ansi` dependency (`wrap(text, 72, {hard: true})`), which is not part of
this repository's sources.  Per the spec, each line is hard-wrapped to 72
columns: a line longer than 72 columns is broken at the last space within the
width, the break consuming that space, and a token longer than 72 columns is
split mid-word at column 72; lines of at most 72 columns are kept unchanged.
`fuel` bounds recursion depth; callers pass the line length, which suffices. -/
def wrapCore : Nat → List Char → List (List Char)
  | 0, l => [l]
  | fuel + 1, l =>
    if l.length ≤ 72 then [l]
    else
      match lastSpace l with
      | some k => l.take k :: wrapCore fuel (l.drop (k + 1))
      | none => l.take 72 :: wrapCore fuel (l.drop 72)

/-- Modelled from the spec: wrap each line of the split input. -/
def wrapPieces : List (List Char) → List (List Char)
  | [] => []
  | l :: ls => wrapCore l.length l ++ wrapPieces ls

/-- Modelled from the spec: hard-wrap a whole text to 72 columns. -/
def wrapText (s : String) : String :=
  String.mk (joinNl (wrapPieces (splitNl s.data)))

/-- The body transformation of `getBody`:
`wrap(input.split('|').join('\n'), 72, {hard: true})`. -/
def bodyWrap (s : String) : String :=
  wrapText (pipesToNl s)

/-- `getBody`. -/
def getBody (m : CCM) (textResp : Option String) : CCM × List String :=
  if m.next then
    if shouldSkip m.czConfig "body" then (m, [])
    else
      match ask (inputMessage m.czConfig MsgKey.body) textResp with
      | (none, asked) => ({ m with next := false }, asked)
      | (some input, asked) => ({ m with body := some (bodyWrap input) }, asked)
  else (m, [])

/-- `getBreaking`. -/
def getBreaking (m : CCM) (textResp : Option String) : CCM × List String :=
  if m.next then
    if shouldSkip m.czConfig "breaking" then (m, [])
    else
      match ask (inputMessage m.czConfig MsgKey.breaking) textResp with
      | (none, asked) => ({ m with next := false }, asked)
      | (some input, asked) => ({ m with breaking := some input }, asked)
  else (m, [])

/-- `getFooter`. -/
def getFooter (m : CCM) (textResp : Option String) : CCM × List String :=
  if m.next then
    if shouldSkip m.czConfig "footer" then (m, [])
    else
      match ask (inputMessage m.czConfig MsgKey.footer) textResp with
      | (none, asked) => ({ m with next := false }, asked)
      | (some input, asked) => ({ m with footer := some input }, asked)
  else (m, [])

/-- JavaScript truthiness of a `string | undefined` value. -/
def jsTruthy : Option String → Bool
  | some s => decide (s ≠ "")
  | none => false

/-- The `complete` getter. -/
def complete (m : CCM) : Bool :=
  m.next && jsTruthy m.type && jsTruthy m.subject

/-- JavaScript template-literal interpolation of a `string | undefined`
value: `undefined` renders as the text `undefined`. -/
def tsStr : Option String → String
  | some s => s
  | none => "undefined"

/-- The header scope segment of `message`:
`typeof this.scope === 'string' && this.scope ? `(scope)` : ''`. -/
def scopeSegment (scope : Option String) : String :=
  match scope with
  | some s => if s = "" then "" else "(" ++ s ++ ")"
  | none => ""

/-- `ConventionalCommitMessage.messageFooter`.  Note that the configured
prefix is consulted through the truthiness test
`this.czConfig && this.czConfig.footerPrefix`, so an empty configured prefix
falls back to `Closes `. -/
def messageFooter (m : CCM) : String :=
  match m.footer with
  | some f =>
    if f = "" then ""
    else
      (match m.czConfig with
       | some c =>
         if CzConfig.footerPrefix c = "" then "Closes " else CzConfig.footerPrefix c
       | none => "Closes ") ++ f
  | none => ""

/-- The `message` getter.  `const czTypes = this.czConfig && this.czConfig.types`
evaluates to `undefined` when no configuration was supplied, and the source
then calls `czTypes!.filter(...)`, which throws a TypeError at runtime; the
thrown case is modelled as `none`.  With a configuration present, the emoji
is the `emojiCode` of the first `types` entry whose `value` equals the
answer type, or the empty string when none matches. -/
def message (m : CCM) : Option String :=
  match m.czConfig with
  | none => none
  | some c =>
    let emojiEntry := c.types.filter fun t => decide (m.type = some t.value)
    let emoji :=
      match emojiEntry with
      | [] => ""
      | e :: _ => e.emojiCode
    some (tsStr m.type ++ scopeSegment m.scope ++ ": " ++ emoji ++ " " ++
      tsStr m.subject ++ "\n\n" ++ tsStr m.body ++ "\n\n" ++
      (match m.breaking with
       | some b => if b = "" then "" else "BREAKING CHANGE: " ++ b ++ "\n"
       | none => "") ++
      messageFooter m)

/-- JavaScript `String.prototype.trim` whitespace (the subset occurring here). -/
def jsWhitespaceChar (c : Char) : Bool :=
  c == ' ' || c == '\t' || c == '\n' || c == '\r' || c == '\x0b' || c == '\x0c'

/-- `message.trim()` as applied by the command callback before committing. -/
def jsTrim (s : String) : String :=
  String.mk (((s.data.dropWhile jsWhitespaceChar).reverse.dropWhile jsWhitespaceChar).reverse)

/-- The recognized `showOutputChannel` setting. -/
inductive ShowOutput where
  | off
  | always
  | onError
deriving DecidableEq

/-- The recognized extension settings (`interface Configuration`). -/
structure Configuration where
  autoSync : Bool
  subjectLength : Nat
  showOutputChannel : ShowOutput
deriving DecidableEq

/-- The result of a child process invocation, per the process interface:
exit code plus captured standard output. -/
structure ProcResult where
  code : Int
  stdout : String
deriving DecidableEq

/-- The environment `commit` runs in: the extension settings, the host
`git.enableSmartCommit` flag, and the results the two git invocations
would produce. -/
structure CommitEnv where
  config : Configuration
  enableSmartCommit : Bool
  stagedDiff : ProcResult
  commitResult : ProcResult
deriving DecidableEq

/-- One observable side effect of `commit` (log line, child process with its
argument list, host command, revealing the output channel). -/
inductive Action where
  | appendLine (line : String)
  | runGit (args : List String)
  | executeCommand (command : String)
  | showChannel
deriving DecidableEq

/-- `hasOutput`: `Boolean(result && result.stdout)`. -/
def hasOutput (result : ProcResult) : Bool :=
  decide (result.stdout ≠ "")

/-- `shouldShowOutput`:
`showOutputChannel === 'always' || showOutputChannel === 'onError' && result.code > 0`. -/
def shouldShowOutput (config : Configuration) (result : ProcResult) : Bool :=
  decide (config.showOutputChannel = ShowOutput.always) ||
    (decide (config.showOutputChannel = ShowOutput.onError) && decide (0 < result.code))

/-- `conditionallyStageFiles` as a trace: `hasStagedFiles` (the staged diff
query) only runs when smart commit is enabled, because `&&` short-circuits;
`git.stageAll` is issued when smart commit is enabled and the diff produced
no output. -/
def conditionallyStageFiles (env : CommitEnv) : List Action :=
  if env.enableSmartCommit then
    Action.runGit ["diff", "--name-only", "--cached"] ::
      (if hasOutput env.stagedDiff then []
       else
        [Action.appendLine "Staging all files (enableSmartCommit enabled with nothing staged)",
         Action.executeCommand "git.stageAll"])
  else []

/-- `commit` as a trace of its side effects, in source order: log line,
conditional staging, the commit invocation, `git.refresh`, optional
`git.sync`, then the output-forwarding and visibility policy.  The failure
catch branch is outside this success-path model; the process port follows
the specified interface and returns the exit code. -/
def commit (env : CommitEnv) (message : String) : List Action :=
  Action.appendLine ("About to commit \x27" ++ message ++ "\x27") ::
    (conditionallyStageFiles env ++
      [Action.runGit ["commit", "-m", message], Action.executeCommand "git.refresh"] ++
      (if env.config.autoSync then [Action.executeCommand "git.sync"] else []) ++
      (if hasOutput env.commitResult then
        (env.commitResult.stdout.split fun c => c == '\n').map Action.appendLine ++
          (if shouldShowOutput env.config env.commitResult then [Action.showChannel] else [])
       else []))

/-- A messages record with every key absent (all prompts fall to defaults). -/
def emptyMessages : Messages :=
  { type := none, customScope := none, customScopeEntry := none, scope := none,
    subject := none, body := none, breaking := none, footer := none }

/-- A configuration carrying exactly the built-in defaults. -/
def cfgDefaults : CzConfig :=
  { types := DEFAULT_TYPES, scopes := [], messages := emptyMessages,
    allowCustomScopes := false, allowBreakingChanges := [],
    footerPrefix := "", skipQuestions := none }

/-- A configuration whose `types` list is explicitly empty. -/
def cfgEmptyTypes : CzConfig :=
  { cfgDefaults with types := [] }

/-- A configuration with two named scopes and custom scopes allowed. -/
def cfgC6 : CzConfig :=
  { cfgDefaults with
    scopes := [ScopeEntry.named (some "api"), ScopeEntry.named (some "ui")],
    allowCustomScopes := true }

/-- A configuration whose single scope entry is the plain empty string,
which yields a quick-pick option with an empty label. -/
def cfgC10 : CzConfig :=
  { cfgDefaults with scopes := [ScopeEntry.raw ""] }

/-- The answer state of the end-to-end scenario, with no configuration. -/
def stC1none : CCM :=
  { czConfig := none, next := true, type := some "feat", scope := some "api",
    subject := some "add health endpoint", body := none, breaking := none,
    footer := some "#42" }

/-- The end-to-end scenario state with the default type table supplied. -/
def stC1def : CCM :=
  { stC1none with czConfig := some cfgDefaults }

/-- An answer state with no configuration and a set type. -/
def stC2none : CCM :=
  { czConfig := none, next := true, type := some "zzz", scope := none,
    subject := some "s", body := none, breaking := none, footer := none }

/-- An answer state whose type matches no entry of the supplied type table. -/
def stC2noMatch : CCM :=
  { stC2none with czConfig := some cfgDefaults }

/-- An answer state with a configured empty footer prefix and footer `#1`. -/
def stC4 : CCM :=
  { czConfig := some cfgEmptyTypes, next := true, type := some "fix",
    scope := none, subject := some "s", body := none, breaking := none,
    footer := some "#1" }

/-- Environment: `showOutputChannel = onError`, failing commit with empty stdout. -/
def envC5 : CommitEnv :=
  { config := { autoSync := false, subjectLength := 50,
                showOutputChannel := ShowOutput.onError },
    enableSmartCommit := false,
    stagedDiff := { code := 0, stdout := "" },
    commitResult := { code := 1, stdout := "" } }

/-- Environment: smart commit enabled and nothing staged. -/
def envC9 : CommitEnv :=
  { config := { autoSync := false, subjectLength := 50,
                showOutputChannel := ShowOutput.off },
    enableSmartCommit := true,
    stagedDiff := { code := 0, stdout := "" },
    commitResult := { code := 0, stdout := "done" } }

/-- A wizard state that has already been cancelled. -/
def stCancelled : CCM :=
  { initialState none with next := false }

/-! ### Helper lemmas about line splitting, joining and wrapping -/

theorem splitNl_ne_nil (cs : List Char) : splitNl cs ≠ [] := by
  cases cs with
  | nil => simp [splitNl]
  | cons c rest =>
    simp only [splitNl]
    cases splitNl rest with
    | nil => simp
    | cons l ls => by_cases hc : c = '\n' <;> simp [hc]

theorem splitNl_no_newline (cs : List Char) : ∀ l ∈ splitNl cs, '\n' ∉ l := by
  induction cs with
  | nil => simp [splitNl]
  | cons c rest ih =>
    simp only [splitNl]
    cases h : splitNl rest with
    | nil => simp
    | cons l ls =>
      rw [h] at ih
      by_cases hc : c = '\n'
      · subst hc
        simp only [if_pos rfl]
        intro p hp
        rcases List.mem_cons.mp hp with h1 | h1
        · subst h1; simp
        · exact ih p h1
      · simp only [if_neg hc]
        intro p hp
        rcases List.mem_cons.mp hp with h1 | h1
        · subst h1
          intro hmem
          rcases List.mem_cons.mp hmem with h2 | h2
          · exact hc h2.symm
          · exact ih l (List.mem_cons_self l ls) h2
        · exact ih p (List.mem_cons_of_mem l h1)

theorem joinNl_splitNl (cs : List Char) : joinNl (splitNl cs) = cs := by
  induction cs with
  | nil => rfl
  | cons c rest ih =>
    cases h : splitNl rest with
    | nil => exact absurd h (splitNl_ne_nil rest)
    | cons l ls =>
      rw [h] at ih
      simp only [splitNl, h]
      by_cases hc : c = '\n'
      · subst hc
        simp only [if_pos rfl, joinNl, List.nil_append]
        rw [ih]
      · simp only [if_neg hc]
        cases ls with
        | nil =>
          simp only [joinNl] at ih ⊢
          rw [ih]
        | cons l2 ls2 =>
          simp only [joinNl] at ih ⊢
          simp only [List.cons_append]
          rw [ih]

theorem splitNl_of_no_newline (l : List Char) (h : '\n' ∉ l) : splitNl l = [l] := by
  induction l with
  | nil => rfl
  | cons c rest ih =>
    have hc : c ≠ '\n' := fun he => h (he ▸ List.mem_cons_self c rest)
    have hrest : '\n' ∉ rest := fun hm => h (List.mem_cons_of_mem c hm)
    simp only [splitNl, ih hrest, if_neg hc]

theorem splitNl_append (p x : List Char) (h : '\n' ∉ p) :
    splitNl (p ++ '\n' :: x) = p :: splitNl x := by
  induction p with
  | nil =>
    simp only [List.nil_append, splitNl]
    cases hx : splitNl x with
    | nil => exact absurd hx (splitNl_ne_nil x)
    | cons l ls => simp
  | cons a p ih =>
    have ha : a ≠ '\n' := fun he => h (he ▸ List.mem_cons_self a p)
    have hp : '\n' ∉ p := fun hm => h (List.mem_cons_of_mem a hm)
    show splitNl (a :: (p ++ '\n' :: x)) = (a :: p) :: splitNl x
    simp only [splitNl, ih hp]
    simp [ha]

theorem splitNl_joinNl (ps : List (List Char)) (h1 : ps ≠ [])
    (h2 : ∀ p ∈ ps, '\n' ∉ p) : splitNl (joinNl ps) = ps := by
  induction ps with
  | nil => exact absurd rfl h1
  | cons p ps ih =>
    cases ps with
    | nil =>
      simp only [joinNl]
      exact splitNl_of_no_newline p (h2 p (List.mem_cons_self p []))
    | cons q ps2 =>
      simp only [joinNl]
      rw [splitNl_append _ _ (h2 p (List.mem_cons_self p (q :: ps2)))]
      rw [ih (by simp) (fun r hr => h2 r (List.mem_cons_of_mem p hr))]

theorem mem_of_getLast?_eq (l : List Nat) (k : Nat) (h : l.getLast? = some k) : k ∈ l := by
  induction l with
  | nil => simp [List.getLast?] at h
  | cons a as ih =>
    cases as with
    | nil =>
      simp only [List.getLast?_singleton] at h
      cases h
      exact List.mem_singleton_self _
    | cons b bs =>
      rw [List.getLast?_cons_cons] at h
      exact List.mem_cons_of_mem a (ih h)

theorem lastSpace_lt (l : List Char) (k : Nat) (h : lastSpace l = some k) : k < 73 := by
  unfold lastSpace at h
  have hmem := mem_of_getLast?_eq _ _ h
  exact List.mem_range.mp (List.mem_filter.mp hmem).1

theorem wrapCore_of_le (fuel : Nat) (l : List Char) (h : l.length ≤ 72) :
    wrapCore fuel l = [l] := by
  cases fuel with
  | zero => rfl
  | succ fuel => simp only [wrapCore, if_pos h]

theorem wrapCore_length_le (fuel : Nat) :
    ∀ l : List Char, l.length ≤ fuel → ∀ p ∈ wrapCore fuel l, p.length ≤ 72 := by
  induction fuel with
  | zero =>
    intro l hl p hp
    simp only [wrapCore, List.mem_singleton] at hp
    subst hp
    omega
  | succ fuel ih =>
    intro l hl p hp
    by_cases h72 : l.length ≤ 72
    · rw [wrapCore_of_le _ _ h72] at hp
      simp only [List.mem_singleton] at hp
      subst hp
      exact h72
    · simp only [wrapCore, if_neg h72] at hp
      cases hk : lastSpace l with
      | some k =>
        rw [hk] at hp
        have hk73 := lastSpace_lt l k hk
        rcases List.mem_cons.mp hp with h1 | h1
        · subst h1
          rw [List.length_take]
          omega
        · refine ih (l.drop (k + 1)) ?_ p h1
          rw [List.length_drop]
          omega
      | none =>
        rw [hk] at hp
        rcases List.mem_cons.mp hp with h1 | h1
        · subst h1
          rw [List.length_take]
          omega
        · refine ih (l.drop 72) ?_ p h1
          rw [List.length_drop]
          omega

theorem wrapCore_no_newline (fuel : Nat) :
    ∀ l : List Char, '\n' ∉ l → ∀ p ∈ wrapCore fuel l, '\n' ∉ p := by
  induction fuel with
  | zero =>
    intro l hl p hp
    simp only [wrapCore, List.mem_singleton] at hp
    subst hp
    exact hl
  | succ fuel ih =>
    intro l hl p hp
    by_cases h72 : l.length ≤ 72
    · rw [wrapCore_of_le _ _ h72] at hp
      simp only [List.mem_singleton] at hp
      subst hp
      exact hl
    · simp only [wrapCore, if_neg h72] at hp
      cases hk : lastSpace l with
      | some k =>
        rw [hk] at hp
        rcases List.mem_cons.mp hp with h1 | h1
        · subst h1
          exact fun hm => hl (List.take_subset k l hm)
        · exact ih (l.drop (k + 1)) (fun hm => hl (List.drop_subset (k + 1) l hm)) p h1
      | none =>
        rw [hk] at hp
        rcases List.mem_cons.mp hp with h1 | h1
        · subst h1
          exact fun hm => hl (List.take_subset 72 l hm)
        · exact ih (l.drop 72) (fun hm => hl (List.drop_subset 72 l hm)) p h1

theorem wrapCore_ne_nil (fuel : Nat) (l : List Char) : wrapCore fuel l ≠ [] := by
  cases fuel with
  | zero => simp [wrapCore]
  | succ fuel =>
    simp only [wrapCore]
    split
    · simp
    · split <;> simp

theorem wrapPieces_ne_nil (ps : List (List Char)) (h : ps ≠ []) : wrapPieces ps ≠ [] := by
  cases ps with
  | nil => exact absurd rfl h
  | cons l ls =>
    simp only [wrapPieces]
    intro he
    exact wrapCore_ne_nil l.length l (List.append_eq_nil.mp he).1

theorem wrapPieces_no_newline (ps : List (List Char)) (h : ∀ l ∈ ps, '\n' ∉ l) :
    ∀ p ∈ wrapPieces ps, '\n' ∉ p := by
  induction ps with
  | nil => simp [wrapPieces]
  | cons l ls ih =>
    intro p hp
    simp only [wrapPieces] at hp
    rcases List.mem_append.mp hp with h1 | h1
    · exact wrapCore_no_newline l.length l (h l (List.mem_cons_self l ls)) p h1
    · exact ih (fun r hr => h r (List.mem_cons_of_mem l hr)) p h1

theorem wrapPieces_length_le (ps : List (List Char)) :
    ∀ p ∈ wrapPieces ps, p.length ≤ 72 := by
  induction ps with
  | nil => simp [wrapPieces]
  | cons l ls ih =>
    intro p hp
    simp only [wrapPieces] at hp
    rcases List.mem_append.mp hp with h1 | h1
    · exact wrapCore_length_le l.length l (Nat.le_refl _) p h1
    · exact ih p h1

theorem wrapPieces_of_le (ps : List (List Char)) (h : ∀ l ∈ ps, l.length ≤ 72) :
    wrapPieces ps = ps := by
  induction ps with
  | nil => rfl
  | cons l ls ih =>
    simp only [wrapPieces]
    rw [wrapCore_of_le l.length l (h l (List.mem_cons_self l ls))]
    rw [ih (fun r hr => h r (List.mem_cons_of_mem l hr))]
    rfl

theorem wrapText_lines (t : String) :
    splitNl (wrapText t).data = wrapPieces (splitNl t.data) := by
  show splitNl (joinNl (wrapPieces (splitNl t.data))) = wrapPieces (splitNl t.data)
  exact splitNl_joinNl _ (wrapPieces_ne_nil _ (splitNl_ne_nil _))
    (wrapPieces_no_newline _ (splitNl_no_newline _))

theorem wrapText_lines_le (t : String) :
    ∀ p ∈ splitNl (wrapText t).data, p.length ≤ 72 := by
  rw [wrapText_lines]
  exact wrapPieces_length_le _

theorem wrapText_fixed (t : String) (h : ∀ p ∈ splitNl t.data, p.length ≤ 72) :
    wrapText t = t := by
  show String.mk (joinNl (wrapPieces (splitNl t.data))) = t
  rw [wrapPieces_of_le _ h, joinNl_splitNl]

/-! ### Helper lemmas about the commit trace -/

theorem hasOutput_iff (r : ProcResult) : hasOutput r = true ↔ r.stdout ≠ "" := by
  simp [hasOutput]

theorem shouldShowOutput_iff (cfg : Configuration) (r : ProcResult) :
    shouldShowOutput cfg r = true ↔
      (cfg.showOutputChannel = ShowOutput.always ∨
        (cfg.showOutputChannel = ShowOutput.onError ∧ 0 < r.code)) := by
  simp [shouldShowOutput]

theorem count_stageAll_map_appendLine (ls : List String) :
    (ls.map Action.appendLine).count (Action.executeCommand "git.stageAll") = 0 := by
  induction ls with
  | nil => rfl
  | cons a ls ih => simp [List.count_cons, ih]

/-! ### Claim theorems -/

/-- C1 counterexample: in the end-to-end scenario with no external
configuration (type `feat`, scope `api`, subject `add health endpoint`,
footer `#42`, body and breaking unset), rendering does not produce the
claimed string `feat(api): ✨ add health endpoint\n\n\n\nCloses #42`; the
`message` getter fails (it dereferences the absent configuration's type
list), so no message is rendered at all. -/
theorem c1_counterexample :
    message stC1none = none ∧
      Option.map jsTrim (message stC1none) ≠
        some "feat(api): ✨ add health endpoint\n\n\n\nCloses #42" :=
  ⟨rfl, by decide⟩

/-- C1 amended: with no external configuration the render step fails, because
the type list is read from the absent configuration rather than from the
default table.  Supplying a configuration whose types are the built-in
defaults, the rendered and trimmed message of the same scenario is
`feat(api): :sparkles: add health endpoint\n\nundefined\n\nCloses #42`: the
emoji code `:sparkles:` (not the glyph) is inserted, and the unset body is
interpolated as the literal text `undefined`. -/
theorem c1_amended :
    message stC1none = none ∧
      Option.map jsTrim (message stC1def) =
        some "feat(api): :sparkles: add health endpoint\n\nundefined\n\nCloses #42" :=
  ⟨rfl, rfl⟩

/-- C2: the render operation is claimed never to fail, with a missing emoji
entry falling back to the empty string.  With a configuration present and a
type matching no entry the empty-string fallback does hold, but with no
external configuration the `message` getter evaluates
`czTypes!.filter(...)` on an `undefined` value and throws, so rendering
fails exactly in the case the claim includes. -/
theorem c2_render_crash :
    message stC2none = none ∧ message stC2noMatch = some "zzz:  s\n\nundefined\n\n" :=
  ⟨rfl, rfl⟩

/-- C3 counterexample: a configuration whose `types` list is explicitly
empty yields an empty type-selection list, not the ten built-in defaults —
a JavaScript array is truthy even when empty, so `types || DEFAULT_TYPES`
keeps the empty array. -/
theorem c3_counterexample :
    typePicks (some cfgEmptyTypes) = [] ∧ typePicks none ≠ [] :=
  ⟨rfl, by decide⟩

/-- C3 amended: the ten built-in default types are presented when the
configuration is absent; when a configuration is present the type-selection
step presents exactly its `types` entries, so an explicitly empty configured
list is presented as an empty option list. -/
theorem c3_amended :
    (typePicks none).map QuickPickItem.label =
      ["feat", "fix", "docs", "style", "refactor", "perf", "test", "build", "ci", "chore"]
    ∧ ∀ c : CzConfig, (typePicks (some c)).length = c.types.length := by
  refine ⟨by decide, ?_⟩
  intro c
  simp [typePicks, typesOf]

/-- C4 counterexample: with `footerPrefix` configured as the empty string and
footer `#1`, the rendered footer is `Closes #1`, not the configured empty
prefix followed by the footer — the truthiness test on `footerPrefix` treats
the empty string like an absent prefix. -/
theorem c4_counterexample :
    messageFooter stC4 = "Closes #1" ∧
      CzConfig.footerPrefix cfgEmptyTypes ++ "#1" = "#1" ∧
      messageFooter stC4 ≠ CzConfig.footerPrefix cfgEmptyTypes ++ "#1" :=
  ⟨rfl, rfl, by decide⟩

/-- C4 amended: for every non-empty footer (with a configuration present so
that rendering succeeds), the rendered message ends with the footer prefix
immediately followed by the footer and no trailing content; the prefix is
the configured `footerPrefix` when that is non-empty, and `Closes ` when the
configured prefix is empty. -/
theorem c4_footer (m : CCM) (c : CzConfig) (f : String)
    (h1 : m.czConfig = some c) (h2 : m.footer = some f) (h3 : f ≠ "") :
    ∃ pre, message m = some (pre ++
      ((if CzConfig.footerPrefix c = "" then "Closes "
        else CzConfig.footerPrefix c) ++ f)) := by
  simp only [message, h1, messageFooter, h2, if_neg h3]
  exact ⟨_, rfl⟩

/-- C4 witness: the amended statement applied to the concrete state with a
configured empty footer prefix and footer `#1`. -/
theorem c4_witness :
    ∃ pre, message stC4 = some (pre ++
      ((if CzConfig.footerPrefix cfgEmptyTypes = "" then "Closes "
        else CzConfig.footerPrefix cfgEmptyTypes) ++ "#1")) :=
  c4_footer stC4 cfgEmptyTypes "#1" rfl rfl (by decide)

/-- C5 counterexample: with `showOutputChannel = onError` and a failing
commit (exit code 1) that produced no stdout, the output channel is not
revealed, although the claim's condition (`onError` and non-zero exit)
holds; revealing is additionally gated on the commit having produced
output. -/
theorem c5_counterexample :
    Action.showChannel ∉ commit envC5 "m" ∧
      envC5.config.showOutputChannel = ShowOutput.onError ∧
      envC5.commitResult.code ≠ 0 ∧
      shouldShowOutput envC5.config envC5.commitResult = true :=
  ⟨by decide, rfl, by decide, rfl⟩

/-- C5 amended: the output channel is brought to the foreground iff the
commit produced output and either `showOutputChannel` is `always`, or it is
`onError` and the exit status is positive; in particular with `onError` and
a zero exit status it is never revealed, and with no captured output it is
never revealed either. -/
theorem c5_show_policy (env : CommitEnv) (msg : String) :
    Action.showChannel ∈ commit env msg ↔
      (env.commitResult.stdout ≠ "" ∧
        (env.config.showOutputChannel = ShowOutput.always ∨
          (env.config.showOutputChannel = ShowOutput.onError ∧
            0 < env.commitResult.code))) := by
  rw [← hasOutput_iff, ← shouldShowOutput_iff]
  cases hsc : env.enableSmartCommit <;>
    cases hst : hasOutput env.stagedDiff <;>
      cases hauto : env.config.autoSync <;>
        cases hout : hasOutput env.commitResult <;>
          cases hshow : shouldShowOutput env.config env.commitResult <;>
            simp [commit, conditionallyStageFiles, hsc, hst, hauto, hout, hshow]

/-- C6 counterexample: choosing the custom-entry option and typing the empty
string does not make the typed text the scope — the scope is left unset
(`pick.label || undefined` discards the empty string). -/
theorem c6_counterexample :
    (getScope (initialState (some cfgC6))
        (some { label := "Custom scope...", description := "" }) (some "")).1.scope = none
    ∧ (none : Option String) ≠ some "" :=
  ⟨rfl, by decide⟩

/-- C6 amended: with a non-empty configured scope list the scope step
presents one option per scope entry plus a trailing custom-entry option iff
`allowCustomScopes`; choosing the custom-entry option re-prompts as free
text with the `customScope` question text (which is also the placeholder of
the quick pick itself), and the typed text becomes the scope when it is
non-empty, while empty typed text leaves the scope unset. -/
theorem c6_scope_flow (cfg : CzConfig) (m : CCM) (t : String)
    (h1 : m.next = true) (h2 : m.czConfig = some cfg) (h3 : cfg.scopes ≠ [])
    (h4 : inputMessage (some cfg) MsgKey.customScope ≠ "") :
    (getScopePicks cfg (inputMessage (some cfg))).length
        = cfg.scopes.length + (if cfg.allowCustomScopes then 1 else 0)
    ∧ (cfg.allowCustomScopes = true →
        getScopePicks cfg (inputMessage (some cfg))
          = (cfg.scopes.map fun s => { label := scopeLabel s, description := "" })
              ++ [{ label := inputMessage (some cfg) MsgKey.customScopeEntry,
                    description := "" }])
    ∧ (cfg.allowCustomScopes = false →
        getScopePicks cfg (inputMessage (some cfg))
          = cfg.scopes.map fun s => { label := scopeLabel s, description := "" })
    ∧ (getScope m (some (⟨inputMessage (some cfg) MsgKey.customScopeEntry, ""⟩ :
          QuickPickItem)) (some t)).2
        = [inputMessage (some cfg) MsgKey.customScope,
           inputMessage (some cfg) MsgKey.customScope]
    ∧ (getScope m (some (⟨inputMessage (some cfg) MsgKey.customScopeEntry, ""⟩ :
          QuickPickItem)) (some t)).1.scope
        = (if t = "" then none else some t) := by
  refine ⟨?_, ?_, ?_, ?_, ?_⟩
  · cases hac : cfg.allowCustomScopes <;> simp [getScopePicks, hac]
  · intro hac; simp [getScopePicks, hac]
  · intro hac; simp [getScopePicks, hac]
  · simp [getScope, h1, h2, h3, askOneOf, h4]
  · simp [getScope, h1, h2, h3, askOneOf, h4]

/-- C6 witness: the amended statement applied to a configuration with two
named scopes, custom scopes allowed, and typed text `core`. -/
theorem c6_witness :
    (getScopePicks cfgC6 (inputMessage (some cfgC6))).length
        = cfgC6.scopes.length + (if cfgC6.allowCustomScopes then 1 else 0)
    ∧ (cfgC6.allowCustomScopes = true →
        getScopePicks cfgC6 (inputMessage (some cfgC6))
          = (cfgC6.scopes.map fun s => { label := scopeLabel s, description := "" })
              ++ [{ label := inputMessage (some cfgC6) MsgKey.customScopeEntry,
                    description := "" }])
    ∧ (cfgC6.allowCustomScopes = false →
        getScopePicks cfgC6 (inputMessage (some cfgC6))
          = cfgC6.scopes.map fun s => { label := scopeLabel s, description := "" })
    ∧ (getScope (initialState (some cfgC6))
          (some (⟨inputMessage (some cfgC6) MsgKey.customScopeEntry, ""⟩ :
            QuickPickItem)) (some "core")).2
        = [inputMessage (some cfgC6) MsgKey.customScope,
           inputMessage (some cfgC6) MsgKey.customScope]
    ∧ (getScope (initialState (some cfgC6))
          (some (⟨inputMessage (some cfgC6) MsgKey.customScopeEntry, ""⟩ :
            QuickPickItem)) (some "core")).1.scope
        = (if ("core" : String) = "" then none else some "core") :=
  c6_scope_flow cfgC6 (initialState (some cfgC6)) "core" rfl rfl (by decide) (by decide)

/-- C7: once a prompt has been cancelled (`next = false`), every step
function performs no interaction (shows no prompt) and returns the state
unchanged, so all six answer fields and the cancelled flag are preserved. -/
theorem c7_cancelled_noop (m : CCM) (p : Option QuickPickItem)
    (t1 t2 t3 t4 t5 : Option String) (h : m.next = false) :
    getType m p = (m, []) ∧ getScope m p t1 = (m, []) ∧ getSubject m t2 = (m, [])
    ∧ getBody m t3 = (m, []) ∧ getBreaking m t4 = (m, []) ∧ getFooter m t5 = (m, []) := by
  simp [getType, getScope, getSubject, getBody, getBreaking, getFooter, h]

/-- C7 witness: the statement applied to a concrete cancelled state. -/
theorem c7_witness :
    getType stCancelled none = (stCancelled, [])
    ∧ getScope stCancelled none none = (stCancelled, [])
    ∧ getSubject stCancelled none = (stCancelled, [])
    ∧ getBody stCancelled none = (stCancelled, [])
    ∧ getBreaking stCancelled none = (stCancelled, [])
    ∧ getFooter stCancelled none = (stCancelled, []) :=
  c7_cancelled_noop stCancelled none none none none none none rfl

/-- C8: for every body input, the stored body is the input with each `|`
replaced by a newline and then hard-wrapped to 72 columns; every line of the
stored body is at most 72 columns, and the wrapping is idempotent on text
whose lines are already at most 72 columns.  The wrap itself is modelled
from the spec (the `wrap-ansi` dependency is not part of this repository's
sources). -/
theorem c8_body_wrap (m : CCM) (input : String)
    (h1 : m.next = true) (h2 : shouldSkip m.czConfig "body" = false) :
    (getBody m (some input)).1.body = some (bodyWrap input)
    ∧ (∀ p ∈ splitNl (bodyWrap input).data, p.length ≤ 72)
    ∧ ∀ t : String, (∀ p ∈ splitNl t.data, p.length ≤ 72) → wrapText t = t := by
  refine ⟨?_, ?_, ?_⟩
  · simp [getBody, ask, h1, h2]
  · exact wrapText_lines_le (pipesToNl input)
  · exact fun t ht => wrapText_fixed t ht

/-- C8 witness: the statement applied to the fresh wizard state and the
input `a|b`, plus idempotence evaluated at the short text `a`. -/
theorem c8_witness :
    (getBody (initialState none) (some "a|b")).1.body = some (bodyWrap "a|b")
    ∧ (∀ p ∈ splitNl (bodyWrap "a|b").data, p.length ≤ 72)
    ∧ wrapText "a" = "a" :=
  ⟨(c8_body_wrap (initialState none) "a|b" rfl rfl).1,
   (c8_body_wrap (initialState none) "a|b" rfl rfl).2.1,
   (c8_body_wrap (initialState none) "a|b" rfl rfl).2.2 "a" (by decide)⟩

/-- C9: `git.stageAll` appears in the commit trace exactly once iff smart
commit is enabled and the staged diff reported no output, and in that case
it appears before the `git commit` invocation; otherwise it never appears. -/
theorem c9_staging (env : CommitEnv) (msg : String) :
    ((commit env msg).count (Action.executeCommand "git.stageAll")
        = if env.enableSmartCommit && !(hasOutput env.stagedDiff) then 1 else 0)
    ∧ (env.enableSmartCommit = true → hasOutput env.stagedDiff = false →
        ∃ pre suf, commit env msg = pre ++ Action.executeCommand "git.stageAll" :: suf
          ∧ Action.runGit ["commit", "-m", msg] ∈ suf
          ∧ Action.executeCommand "git.stageAll" ∉ pre
          ∧ Action.runGit ["commit", "-m", msg] ∉ pre) := by
  constructor
  · cases hsc : env.enableSmartCommit <;>
      cases hst : hasOutput env.stagedDiff <;>
        cases hauto : env.config.autoSync <;>
          cases hout : hasOutput env.commitResult <;>
            cases hshow : shouldShowOutput env.config env.commitResult <;>
              simp [commit, conditionallyStageFiles, hsc, hst, hauto, hout, hshow,
                List.count_cons, List.count_append, count_stageAll_map_appendLine]
  · intro hsc hst
    refine ⟨[Action.appendLine ("About to commit \x27" ++ msg ++ "\x27"),
             Action.runGit ["diff", "--name-only", "--cached"],
             Action.appendLine
               "Staging all files (enableSmartCommit enabled with nothing staged)"],
            [Action.runGit ["commit", "-m", msg], Action.executeCommand "git.refresh"]
              ++ (if env.config.autoSync then [Action.executeCommand "git.sync"] else [])
              ++ (if hasOutput env.commitResult then
                    (env.commitResult.stdout.split fun c => c == '\n').map
                        Action.appendLine ++
                      (if shouldShowOutput env.config env.commitResult then
                        [Action.showChannel]
                       else [])
                  else []), ?_, ?_, ?_, ?_⟩
    · simp [commit, conditionallyStageFiles, hsc, hst]
    · simp
    · simp
    · simp

/-- C9 witness: the statement applied to a concrete environment with smart
commit enabled and an empty staged diff. -/
theorem c9_witness :
    ((commit envC9 "m").count (Action.executeCommand "git.stageAll")
        = if envC9.enableSmartCommit && !(hasOutput envC9.stagedDiff) then 1 else 0)
    ∧ ∃ pre suf, commit envC9 "m" = pre ++ Action.executeCommand "git.stageAll" :: suf
        ∧ Action.runGit ["commit", "-m", "m"] ∈ suf
        ∧ Action.executeCommand "git.stageAll" ∉ pre
        ∧ Action.runGit ["commit", "-m", "m"] ∉ pre :=
  ⟨(c9_staging envC9 "m").1, (c9_staging envC9 "m").2 rfl rfl⟩

/-- C10: in the scope quick-pick branch, selecting an option whose label is
the empty string leaves the scope unset (`undefined`, not the empty
string), and the header scope segment rendered from that state is empty, so
no `()` appears; the step also proceeds (no cancellation). -/
theorem c10_empty_label (cfg : CzConfig) (m : CCM) (p : QuickPickItem) (t : Option String)
    (h1 : m.next = true) (h2 : m.czConfig = some cfg) (h3 : cfg.scopes ≠ [])
    (h4 : p ∈ getScopePicks cfg (inputMessage (some cfg))) (h5 : p.label = "")
    (h6 : inputMessage (some cfg) MsgKey.customScopeEntry ≠ "") :
    (getScope m (some p) t).1.scope = none
    ∧ scopeSegment (getScope m (some p) t).1.scope = ""
    ∧ (getScope m (some p) t).1.next = true := by
  have h7 : ¬(("" : String) = inputMessage (some cfg) MsgKey.customScopeEntry) :=
    fun hlab => h6 hlab.symm
  refine ⟨?_, ?_, ?_⟩ <;>
    simp [getScope, h1, h2, h3, askOneOf, h7, h5, scopeSegment]

/-- C10 witness: the statement applied to a configuration whose single
scope entry is the plain empty string, which produces exactly one pick with
an empty label. -/
theorem c10_witness :
    (getScope (initialState (some cfgC10))
        (some { label := "", description := "" }) none).1.scope = none
    ∧ scopeSegment (getScope (initialState (some cfgC10))
        (some { label := "", description := "" }) none).1.scope = ""
    ∧ (getScope (initialState (some cfgC10))
        (some { label := "", description := "" }) none).1.next = true :=
  c10_empty_label cfgC10 (initialState (some cfgC10))
    { label := "", description := "" } none rfl rfl (by decide) (by decide) rfl (by decide)

end Commitizen
